import Mathlib

/-!
Verification development for the reconciliation engine of
`backend/src/index.js` (Smart Reconciliation Visualizer).

The engine is shallowly embedded: CSV cell values are `Option String`
(`none` models a JavaScript `undefined` property) and JavaScript numbers
are modelled as exact fractions (`JsNum`, interpreted in `ℚ` by
`JsNum.toRat`; every number the engine manipulates is a small decimal, so
double rounding is immaterial at this granularity and all arithmetic is
exact).  A JavaScript `NaN` arising from `Number(...)` on unparseable
text is modelled as `none : Option JsNum` (every JS `<=` comparison
against `NaN` is false, which `jsLeOpt` mirrors).

`Number(...)` is modelled on the fragment the application exercises:
optional sign and decimal digit strings with an optional fractional part,
plus the whitespace trimming and empty-string-to-zero conventions of
JavaScript.  Exotic numeric literal forms (exponents, hex, `Infinity`) are
outside the modelled fragment and are mapped to `none`; no behaviour in
this file depends on them.

`new Date(s)` followed by `toISOString().slice(0, 10)` is modelled, for a
UTC runtime, on the forms the source comment names: strict `YYYY-MM-DD`
and `MM/DD/YYYY` with a four-digit year and a valid calendar date.
Implementation-defined legacy-parser edge cases (day overflow, other
textual forms) are modelled as unparseable; no claim depends on them.
-/

namespace Recon

/-- Association-list lookup, the model of JavaScript property access and
of `Map.get` (the engine's `Map` keys are unique by construction). -/
def assocFind {α : Type} : List (String × α) → String → Option α
  | [], _ => none
  | (k, v) :: t, q => if k = q then some v else assocFind t q

/-- Whitespace trimming (JS `String.prototype.trim` / the trimming inside
`Number`), implemented on character lists so that it reduces in the
kernel. -/
def trimChars (cs : List Char) : List Char :=
  ((cs.dropWhile Char.isWhitespace).reverse.dropWhile Char.isWhitespace).reverse

def jsTrim (s : String) : String :=
  String.mk (trimChars s.toList)

/-- ASCII lower-casing (JS `toLowerCase` on the ASCII fragment). -/
def jsToLower (s : String) : String :=
  String.mk (s.toList.map Char.toLower)

/-- Digit-string value, e.g. `['1','2']  ↦  12`. -/
def digitsVal (cs : List Char) : Nat :=
  cs.foldl (fun n c => 10 * n + (c.toNat - 48)) 0

def allDigits (cs : List Char) : Bool :=
  cs.all (fun c => c.isDigit)

/-- A parsed JavaScript number, kept as an exact unreduced fraction so
that every engine computation reduces in the kernel.  Every `JsNum` the
development constructs has a positive denominator (a power of ten or a
product of such). -/
structure JsNum where
  num : Int
  den : Nat
deriving DecidableEq, Repr

/-- The rational value of a parsed number. -/
def JsNum.toRat (x : JsNum) : ℚ :=
  (x.num : ℚ) / (x.den : ℚ)

/-- `a - b` on parsed numbers. -/
def JsNum.sub (a b : JsNum) : JsNum :=
  ⟨a.num * b.den - b.num * a.den, a.den * b.den⟩

/-- `Math.abs` on parsed numbers. -/
def JsNum.abs (a : JsNum) : JsNum :=
  ⟨(a.num.natAbs : Int), a.den⟩

/-- `a <= b` on parsed numbers (valid for the positive denominators the
development maintains). -/
def JsNum.le (a b : JsNum) : Bool :=
  decide (a.num * (b.den : Int) ≤ b.num * (a.den : Int))

/-- Decimal-literal core of JavaScript `Number` on an already trimmed,
non-empty string: optional sign, then digits with an optional single
decimal point (at least one digit overall).  Unparseable text — the
JS `NaN` — is `none`.  `i.f` parses to `(i * 10^|f| + f) / 10^|f|`. -/
def jsSign (c : Char) (q : JsNum) : JsNum :=
  if c = '-' then ⟨-q.num, q.den⟩ else q

def parseDecCore (s : String) : Option JsNum :=
  match s.toList with
  | [] => none
  | c :: rest =>
    match (if c = '-' ∨ c = '+' then rest else c :: rest).splitOn '.' with
    | [ip] =>
      if ip ≠ [] ∧ allDigits ip then some (jsSign c ⟨(digitsVal ip : Int), 1⟩)
      else none
    | [ip, fp] =>
      if (ip ≠ [] ∨ fp ≠ []) ∧ allDigits ip ∧ allDigits fp then
        some (jsSign c ⟨((digitsVal ip * 10 ^ fp.length + digitsVal fp : Nat) : Int),
                        10 ^ fp.length⟩)
      else none
    | _ => none

/-- JavaScript `Number(s)` for a string argument: whitespace is trimmed
and the empty string converts to `0`. -/
def jsNumber (s : String) : Option JsNum :=
  let t := jsTrim s
  if t = "" then some ⟨0, 1⟩ else parseDecCore t

/-- `toNumber` from the source: `null`/`undefined` and whitespace-only
text give `null`; commas (thousands separators) are removed before the
`Number` conversion; non-finite conversions give `null`. -/
def toNumber (v : Option String) : Option JsNum :=
  match v with
  | none => none
  | some s =>
    let t := jsTrim s
    if t = "" then none
    else jsNumber (String.mk (t.toList.filter (fun ch => ch ≠ ',')))

/-- `stringify` from the source: `null`/`undefined` give `""`, other
values are stringified and trimmed. -/
def stringify (v : Option String) : String :=
  match v with
  | none => ""
  | some s => jsTrim s

/-- Rendering of a raw cell inside a template literal: an absent property
(`undefined`) prints as `"undefined"`. -/
def jsTpl (v : Option String) : String :=
  match v with
  | none => "undefined"
  | some s => s

/-! ### Dates -/

def isLeap (y : Nat) : Bool :=
  (y % 4 = 0 && y % 100 ≠ 0) || y % 400 = 0

def daysInMonth (y m : Nat) : Nat :=
  if m = 2 then (if isLeap y then 29 else 28)
  else if m = 4 ∨ m = 6 ∨ m = 9 ∨ m = 11 then 30
  else 31

/-- Day number of a calendar date (years ≥ 1); only differences of this
quantity are ever used, mirroring `getTime()` arithmetic at UTC
midnights. -/
def rataDie (y m d : Nat) : Nat :=
  let y2 := if m ≤ 2 then y - 1 else y
  let mp := (m + 9) % 12
  let doy := (153 * mp + 2) / 5 + d - 1
  365 * y2 + y2 / 4 - y2 / 100 + y2 / 400 + doy

def parseDigitsLen (cs : List Char) (lo hi : Nat) : Option Nat :=
  if lo ≤ cs.length ∧ cs.length ≤ hi ∧ allDigits cs then some (digitsVal cs)
  else none

def mkDateT (y m d : Nat) : Option (Nat × Nat × Nat) :=
  if 1 ≤ y ∧ 1 ≤ m ∧ m ≤ 12 ∧ 1 ≤ d ∧ d ≤ daysInMonth y m then some (y, m, d)
  else none

def parseDateISO (t : String) : Option (Nat × Nat × Nat) :=
  match t.toList.splitOn '-' with
  | [ys, ms, ds] =>
    match parseDigitsLen ys 4 4, parseDigitsLen ms 2 2,
          parseDigitsLen ds 2 2 with
    | some y, some m, some d => mkDateT y m d
    | _, _, _ => none
  | _ => none

def parseDateSlash (t : String) : Option (Nat × Nat × Nat) :=
  match t.toList.splitOn '/' with
  | [ms, ds, ys] =>
    match parseDigitsLen ms 1 2, parseDigitsLen ds 1 2,
          parseDigitsLen ys 4 4 with
    | some m, some d, some y => mkDateT y m d
    | _, _, _ => none
  | _ => none

/-- The calendar date produced by `normalizeDate`'s `new Date(s)` call on
the modelled fragment. -/
def normalizeDateT (v : Option String) : Option (Nat × Nat × Nat) :=
  match v with
  | none => none
  | some s =>
    let t := jsTrim s
    if t = "" then none
    else
      match parseDateISO t with
      | some r => some r
      | none => parseDateSlash t

def pad2 (n : Nat) : String :=
  if n < 10 then "0" ++ toString n else toString n

def pad4 (n : Nat) : String :=
  if n < 10 then "000" ++ toString n
  else if n < 100 then "00" ++ toString n
  else if n < 1000 then "0" ++ toString n
  else toString n

def fmtDate : Nat × Nat × Nat → String
  | (y, m, d) => pad4 y ++ "-" ++ pad2 m ++ "-" ++ pad2 d

/-- `normalizeDate` from the source: canonical `YYYY-MM-DD` text, or
`null` when unparseable. -/
def normalizeDate (v : Option String) : Option String :=
  (normalizeDateT v).map fmtDate

/-! ### Rows, rules, mapping -/

/-- A parsed CSV row: the positional `__rowId` assigned by
`parseCsvBuffer` plus the header-to-raw-text cells. -/
structure Row where
  rowId : Nat
  cells : List (String × String)
deriving DecidableEq, Repr

/-- JavaScript property access `r[f]` on a row object. -/
def getField (r : Row) (f : String) : Option String :=
  assocFind r.cells f

/-- The `rules` request object.  Tolerances are carried as their raw JSON
text (`none` = absent/null); numeric JSON literals are modelled by their
source text. -/
structure Rules where
  amountTolerance : Option String := none
  dateToleranceDays : Option String := none
  compositeKeysA : Option (List String) := none
  compositeKeysB : Option (List String) := none
  fieldTypes : Option (List (String × String)) := none
deriving DecidableEq, Repr

def fieldTypeOf (rules : Option Rules) (f : String) : Option String :=
  rules.bind fun r => r.fieldTypes.bind fun ft => assocFind ft f

/-- JavaScript `String(n)` for a parsed number: the rendering depends
only on the numeric value (canonicalised through `mkRat`), and is exact
for the integral values all concrete claims use; a non-integral value
renders as `num/den` of the reduced fraction, which no claim inspects
textually — only the determinism of the rendering matters. -/
def ratKeyStr (x : JsNum) : String :=
  let q := mkRat x.num x.den
  if q.den = 1 then toString q.num
  else toString q.num ++ "/" ++ toString q.den

/-- `buildKey` from the source: per listed column, normalize the value by
its declared field type and join the parts with `"||"`. -/
def buildKey (record : Row) (fields : List String) (rules : Option Rules) : String :=
  let parts := fields.map fun f =>
    let v := getField record f
    if fieldTypeOf rules f = some "number" then
      match toNumber v with
      | some q => ratKeyStr q
      | none => ""
    else if fieldTypeOf rules f = some "date" then
      (normalizeDate v).getD ""
    else
      jsToLower (stringify v)
  String.intercalate "||" parts

structure FieldPair where
  a : Option String := none
  b : Option String := none
deriving DecidableEq, Repr

structure Mapping where
  id : Option FieldPair := none
  amount : Option FieldPair := none
  date : Option FieldPair := none
  description : Option FieldPair := none
deriving DecidableEq, Repr

/-- JavaScript `x || d` for an optional string `x` (both `undefined` and
`""` are falsy). -/
def jsOrS : Option String → String → String
  | some s, d => if s = "" then d else s
  | none, d => d

/-- `pickField` from the source, specialised to the engine's fallbacks
(which are always non-empty string literals, so the trailing `|| null`
never fires). -/
def pickField (m : Option FieldPair) (fa fb : String) : String × String :=
  match m with
  | some fp => (jsOrS fp.a fa, jsOrS fp.b fb)
  | none => (fa, fb)

/-! ### Comparators -/

structure CmpRes where
  ok : Bool
  reason : Option String := none
deriving DecidableEq, Repr

/-- JavaScript `x <= t` where `t` may be `NaN` (`none`): any comparison
against `NaN` is false. -/
def jsLeOpt (x : JsNum) : Option JsNum → Bool
  | none => false
  | some t => x.le t

/-- `compareAmounts` from the source: `Math.abs(an - bn) <= amountTol`. -/
def compareAmounts (tol : Option JsNum) (a b : Option String) : CmpRes :=
  match toNumber a, toNumber b with
  | some an, some bn => { ok := jsLeOpt ((an.sub bn).abs) tol }
  | _, _ => { ok := false, reason := some "AMOUNT_MISSING" }

def dayNumber (t : Nat × Nat × Nat) : Nat :=
  rataDie t.1 t.2.1 t.2.2

/-- `compareDates` from the source: both values are normalized, then the
absolute whole-day difference of the two UTC midnights is compared with
the tolerance.  (The source re-parses the canonical `YYYY-MM-DD` text; on
valid dates that recovers exactly the normalized calendar date, so the
day number is taken from it directly.) -/
def compareDates (tol : Option JsNum) (a b : Option String) : CmpRes :=
  match normalizeDateT a, normalizeDateT b with
  | some ta, some tb =>
    { ok := jsLeOpt ⟨((max (dayNumber ta) (dayNumber tb)
                       - min (dayNumber ta) (dayNumber tb) : Nat) : Int), 1⟩ tol }
  | _, _ => { ok := false, reason := some "DATE_MISSING" }

/-! ### The reconciliation engine -/

inductive Mode where
  | auto
  | custom
deriving DecidableEq, Repr

structure Args where
  aRows : List Row
  bRows : List Row
  mapping : Option Mapping := none
  mode : Mode
  rules : Option Rules := none

/-- Resolved per-invocation context: mapped column names, parsed
tolerances, composite key lists. -/
structure Ctx where
  mode : Mode
  idA : String
  idB : String
  amtA : String
  amtB : String
  dtA : String
  dtB : String
  dsA : String
  dsB : String
  amountTol : Option JsNum
  dateTol : Option JsNum
  keysA : List String
  keysB : List String
  rules : Option Rules

/-- `Number(rules?.x ?? 0)`: an absent/null field numberises to `0`; a
present field goes through `Number` (possibly `NaN`, i.e. `none`). -/
def tolOf : Option String → Option JsNum
  | none => some ⟨0, 1⟩
  | some s => jsNumber s

def mkCtx (args : Args) : Ctx :=
  let idP := pickField (args.mapping.bind (·.id)) "transaction_id" "transaction_id"
  let amtP := pickField (args.mapping.bind (·.amount)) "amount" "amount"
  let dtP := pickField (args.mapping.bind (·.date)) "date" "date"
  let dsP := pickField (args.mapping.bind (·.description)) "description" "description"
  { mode := args.mode
    idA := idP.1, idB := idP.2
    amtA := amtP.1, amtB := amtP.2
    dtA := dtP.1, dtB := dtP.2
    dsA := dsP.1, dsB := dsP.2
    amountTol := tolOf (args.rules.bind (·.amountTolerance))
    dateTol := tolOf (args.rules.bind (·.dateToleranceDays))
    keysA := (args.rules.bind (·.compositeKeysA)).getD []
    keysB := (args.rules.bind (·.compositeKeysB)).getD []
    rules := args.rules }

/-- The A-side probe key: `stringify(a[aKeyField] ?? "")` in auto mode
(`?? ""` is absorbed by `stringify`, which already sends `undefined` to
`""`), the composite key in custom mode. -/
def aKey (c : Ctx) (a : Row) : String :=
  match c.mode with
  | .auto => stringify (getField a c.idA)
  | .custom => buildKey a c.keysA c.rules

/-- The B-side index key for a row, per mode. -/
def bKeyOf (c : Ctx) (r : Row) : String :=
  match c.mode with
  | .auto => stringify (getField r c.idB)
  | .custom => buildKey r c.keysB c.rules

/-- Whether a B row is offered to the index at all: auto mode skips rows
whose id stringifies to `""` (`if (!id) continue`); custom mode offers
every row. -/
def bKeep (c : Ctx) (r : Row) : Bool :=
  match c.mode with
  | .auto => !(bKeyOf c r == "")
  | .custom => true

/-- One step of building the B index: first occurrence of a key wins
(`if (!bIndex.has(key)) bIndex.set(key, r)`). -/
def bIndexStep (c : Ctx) (m : List (String × Row)) (r : Row) : List (String × Row) :=
  if bKeep c r then
    if (assocFind m (bKeyOf c r)).isSome then m else (bKeyOf c r, r) :: m
  else m

def bIndexL (c : Ctx) (bs : List Row) : List (String × Row) :=
  bs.foldl (bIndexStep c) []

/-- `bIndex.get(q)`. -/
def bFind (c : Ctx) (bs : List Row) (q : String) : Option Row :=
  assocFind (bIndexL c bs) q

/-- `key ? bIndex.get(key) : null`, with `undefined` lookup results also
collapsed to `none`. -/
def lookupB (c : Ctx) (bs : List Row) (a : Row) : Option Row :=
  let k := aKey c a
  if k = "" then none else bFind c bs k

/-- One result record: `status`, the `key` (`none` models the literal
`null` key of custom-mode MISSING_IN_A records), `reason` and the two row
references. -/
structure RRec where
  status : String
  key : Option String
  reason : String
  a : Option Row
  b : Option Row
deriving DecidableEq, Repr

/-- The inline mismatch-reason builder from the source: raw strict
inequality on the literal `amount` and `date` properties (not the mapped
columns, and not the comparator verdicts), rendered through template
literals. -/
def mismatchReasons (a b : Row) : List String :=
  (if getField a "amount" ≠ getField b "amount" then
    ["Amount differs (" ++ jsTpl (getField a "amount") ++ " vs "
      ++ jsTpl (getField b "amount") ++ ")"]
   else [])
  ++
  (if getField a "date" ≠ getField b "date" then
    ["Date differs (" ++ jsTpl (getField a "date") ++ " vs "
      ++ jsTpl (getField b "date") ++ ")"]
   else [])

/-- The body of the probe loop for one A row.  The loop writes exactly one
record per A row and its decisions depend only on the fixed B index (the
`bUsed` set is only ever added to inside the loop), so the loop is a
`List.map` of this function. -/
def probeOne (c : Ctx) (bs : List Row) (a : Row) : RRec :=
  let key := aKey c a
  match lookupB c bs a with
  | none =>
    { status := "MISSING_IN_B", key := some key, reason := "MISSING_IN_B"
      a := some a, b := none }
  | some b =>
    let amountCmp := compareAmounts c.amountTol (getField a c.amtA) (getField b c.amtB)
    let dateCmp := compareDates c.dateTol (getField a c.dtA) (getField b c.dtB)
    let mismatches :=
      (if amountCmp.ok then [] else [amountCmp.reason.getD "AMOUNT_MISMATCH"])
      ++ (if dateCmp.ok then [] else [dateCmp.reason.getD "DATE_MISMATCH"])
    if mismatches.isEmpty then
      { status := "MATCHED", key := some key, reason := "MATCHED"
        a := some a, b := some b }
    else
      { status := "mismatch", key := some key
        reason := String.intercalate " | " (mismatchReasons a b)
        a := some a, b := some b }

/-- A MISSING_IN_A record for an unmatched B row. -/
def mkMissingA (c : Ctx) (b : Row) : RRec :=
  { status := "MISSING_IN_A"
    key := match c.mode with
           | .auto => some (stringify (getField b c.idB))
           | .custom => none
    reason := "MISSING_IN_A"
    a := none, b := some b }

/-- The `bUsed` set after the probe loop: row ids of every B row some A
row matched (`bUsed.add(b.__rowId)` runs in both the matched and the
mismatch branch). -/
def usedIds (c : Ctx) (as2 bs : List Row) : List Nat :=
  as2.filterMap fun a => (lookupB c bs a).map (·.rowId)

/-- The B rows swept into MISSING_IN_A records, in B's row order. -/
def unmatchedB (args : Args) : List Row :=
  let c := mkCtx args
  args.bRows.filter fun b => !((usedIds c args.aRows args.bRows).contains b.rowId)

/-- All result records, in emission order: the probe loop's records (one
per A row, in A order), then the sweep's MISSING_IN_A records (in B
order). -/
def resultsOf (args : Args) : List RRec :=
  let c := mkCtx args
  args.aRows.map (probeOne c args.bRows) ++ (unmatchedB args).map (mkMissingA c)

structure Summary where
  MATCHED : Nat
  MISMATCH : Nat
  MISSING_IN_B : Nat
  MISSING_IN_A : Nat
  total : Nat
deriving DecidableEq, Repr

/-- The summary counters.  Each branch of the source increments exactly
one counter and pushes exactly one record, and each branch writes a status
string unique to that branch (`"mismatch"`, lower-case, for the MISMATCH
counter), so the counter equals the number of emitted records carrying
that branch's status string. -/
def summaryOf (args : Args) : Summary :=
  let rs := resultsOf args
  { MATCHED := rs.countP (·.status == "MATCHED")
    MISMATCH := rs.countP (·.status == "mismatch")
    MISSING_IN_B := rs.countP (·.status == "MISSING_IN_B")
    MISSING_IN_A := rs.countP (·.status == "MISSING_IN_A")
    total := rs.length }

structure ReconOut where
  summary : Summary
  results : List RRec

/-- `reconcile` from the source. -/
def reconcile (args : Args) : ReconOut :=
  { summary := summaryOf args, results := resultsOf args }

end Recon

/-! ### Concrete inputs used by witnesses and counterexamples -/

namespace Recon

def ex1A1 : Row := ⟨1, [("transaction_id", "1")]⟩
def ex1A2 : Row := ⟨2, [("transaction_id", "1")]⟩
def ex1B : Row := ⟨1, [("transaction_id", "1")]⟩
def ex1Args : Args := { aRows := [ex1A1, ex1A2], bRows := [ex1B], mode := .auto }

def ex2A : Row := ⟨1, [("transaction_id", "1"), ("amount", "100"), ("date", "2024-01-05")]⟩
def ex2B : Row := ⟨1, [("transaction_id", "1"), ("amount", "200"), ("date", "2024-01-05")]⟩
def ex2Args : Args := { aRows := [ex2A], bRows := [ex2B], mode := .auto }

def ex4A : Row := ⟨1, [("transaction_id", "1"), ("amount", "100"), ("date", "2024-01-05")]⟩
def ex4B : Row := ⟨1, [("transaction_id", "1"), ("amount", "100.0"), ("date", "2024-01-06")]⟩
def ex4Args : Args := { aRows := [ex4A], bRows := [ex4B], mode := .auto }

def ex5B1 : Row := ⟨1, [("transaction_id", "1")]⟩
def ex5B2 : Row := ⟨2, [("transaction_id", "1")]⟩
def ex5Args : Args := { aRows := [], bRows := [ex5B1, ex5B2], mode := .auto }

def ex6R1 : Row := ⟨1, [("x", "AB")]⟩
def ex6R2 : Row := ⟨2, [("x", " ab ")]⟩

def ex7Rules : Rules :=
  { amountTolerance := some "abc"
    compositeKeysA := some ["transaction_id"]
    compositeKeysB := some ["transaction_id"] }
def ex7A : Row := ⟨1, [("transaction_id", "1"), ("amount", "100"), ("date", "2024-01-05")]⟩
def ex7B : Row := ⟨1, [("transaction_id", "1"), ("amount", "100"), ("date", "2024-01-05")]⟩
def ex7Args : Args :=
  { aRows := [ex7A], bRows := [ex7B], mode := .custom, rules := some ex7Rules }

def ex9A : Row := ⟨1, [("transaction_id", "1"), ("amount", "5"), ("date", "2024-01-05")]⟩
def ex9B : Row := ⟨1, [("transaction_id", "2"), ("amount", "5"), ("date", "2024-01-05")]⟩
def ex9Args : Args := { aRows := [ex9A], bRows := [ex9B], mode := .auto }

def ex10A : Row := ⟨1, [("transaction_id", " ")]⟩
def ex10B : Row := ⟨1, [("transaction_id", "")]⟩
def ex10Args : Args := { aRows := [ex10A], bRows := [ex10B], mode := .auto }

end Recon

/-! ### Bridge lemmas: `JsNum` semantics in `ℚ` -/

namespace Recon

theorem JsNum.le_iff {a b : JsNum} (ha : 0 < a.den) (hb : 0 < b.den) :
    a.le b = true ↔ a.toRat ≤ b.toRat := by
  have ha' : (0 : ℚ) < (a.den : ℚ) := by exact_mod_cast ha
  have hb' : (0 : ℚ) < (b.den : ℚ) := by exact_mod_cast hb
  rw [JsNum.le, decide_eq_true_eq, JsNum.toRat, JsNum.toRat,
    div_le_div_iff₀ ha' hb']
  constructor
  · intro h
    exact_mod_cast h
  · intro h
    exact_mod_cast h

theorem JsNum.toRat_sub {a b : JsNum} (ha : a.den ≠ 0) (hb : b.den ≠ 0) :
    (a.sub b).toRat = a.toRat - b.toRat := by
  have ha' : ((a.den : ℚ)) ≠ 0 := by exact_mod_cast ha
  have hb' : ((b.den : ℚ)) ≠ 0 := by exact_mod_cast hb
  rw [JsNum.sub, JsNum.toRat, JsNum.toRat, JsNum.toRat]
  field_simp
  ring

theorem JsNum.toRat_abs (a : JsNum) : (a.abs).toRat = |a.toRat| := by
  rw [JsNum.abs, JsNum.toRat, JsNum.toRat, abs_div]
  have h1 : ((a.num.natAbs : Int) : ℚ) = |(a.num : ℚ)| := by
    push_cast [Int.cast_natAbs]
    rfl
  have h2 : |(a.den : ℚ)| = (a.den : ℚ) := abs_of_nonneg (by positivity)
  rw [h1, h2]

theorem jsSign_den (c : Char) (q : JsNum) : (jsSign c q).den = q.den := by
  rw [jsSign]
  split <;> rfl

theorem parseDecCore_denPos {s : String} {x : JsNum}
    (h : parseDecCore s = some x) : 0 < x.den := by
  unfold parseDecCore at h
  split at h
  · exact absurd h (by simp)
  · split at h
    · split at h
      · cases h
        rw [jsSign_den]
        exact Nat.one_pos
      · exact absurd h (by simp)
    · split at h
      · cases h
        rw [jsSign_den]
        positivity
      · exact absurd h (by simp)
    · exact absurd h (by simp)

theorem jsNumber_denPos {s : String} {x : JsNum}
    (h : jsNumber s = some x) : 0 < x.den := by
  rw [jsNumber] at h
  by_cases ht : jsTrim s = ""
  · rw [if_pos ht] at h
    cases h
    exact Nat.one_pos
  · rw [if_neg ht] at h
    exact parseDecCore_denPos h

theorem toNumber_denPos {v : Option String} {x : JsNum}
    (h : toNumber v = some x) : 0 < x.den := by
  rcases v with _ | s
  · rw [show toNumber none = none from rfl] at h
    cases h
  · rw [toNumber] at h
    by_cases ht : jsTrim s = ""
    · rw [if_pos ht] at h
      cases h
    · rw [if_neg ht] at h
      exact jsNumber_denPos h

theorem tolOf_denPos {o : Option String} {x : JsNum}
    (h : tolOf o = some x) : 0 < x.den := by
  rcases o with _ | s
  · rw [tolOf] at h; cases h; exact Nat.one_pos
  · rw [tolOf] at h; exact jsNumber_denPos h

/-- The canonical key rendering depends only on the numeric value. -/
theorem ratKeyStr_congr {x y : JsNum} (h : x.toRat = y.toRat) :
    ratKeyStr x = ratKeyStr y := by
  have hx : mkRat x.num x.den = x.toRat := by
    rw [JsNum.toRat]
    exact Rat.mkRat_eq_div x.num x.den
  have hy : mkRat y.num y.den = y.toRat := by
    rw [JsNum.toRat]
    exact Rat.mkRat_eq_div y.num y.den
  rw [ratKeyStr, ratKeyStr, hx, hy, h]

end Recon

/-! ### Structure of the probe records -/

namespace Recon

theorem probeOne_a (c : Ctx) (bs : List Row) (a : Row) :
    (probeOne c bs a).a = some a := by
  rw [probeOne]
  rcases h : lookupB c bs a with _ | b
  · rfl
  · rcases hA : (compareAmounts c.amountTol (getField a c.amtA) (getField b c.amtB)).ok
      <;> rcases hD : (compareDates c.dateTol (getField a c.dtA) (getField b c.dtB)).ok
      <;> simp [hA, hD]

theorem probeOne_b (c : Ctx) (bs : List Row) (a : Row) :
    (probeOne c bs a).b = lookupB c bs a := by
  rw [probeOne]
  rcases h : lookupB c bs a with _ | b
  · rfl
  · rcases hA : (compareAmounts c.amountTol (getField a c.amtA) (getField b c.amtB)).ok
      <;> rcases hD : (compareDates c.dateTol (getField a c.dtA) (getField b c.dtB)).ok
      <;> simp [hA, hD]

theorem probeOne_status (c : Ctx) (bs : List Row) (a : Row) :
    (probeOne c bs a).status = "MISSING_IN_B"
    ∨ (probeOne c bs a).status = "MATCHED"
    ∨ (probeOne c bs a).status = "mismatch" := by
  rw [probeOne]
  rcases h : lookupB c bs a with _ | b
  · exact Or.inl rfl
  · rcases hA : (compareAmounts c.amountTol (getField a c.amtA) (getField b c.amtB)).ok
      <;> rcases hD : (compareDates c.dateTol (getField a c.dtA) (getField b c.dtB)).ok
      <;> simp [hA, hD]

theorem mkMissingA_status (c : Ctx) (b : Row) :
    (mkMissingA c b).status = "MISSING_IN_A" := rfl

theorem mkMissingA_a (c : Ctx) (b : Row) : (mkMissingA c b).a = none := rfl

theorem mkMissingA_b (c : Ctx) (b : Row) : (mkMissingA c b).b = some b := rfl

/-! ### Characterisation of the B index -/

theorem assocFind_cons (k : String) (v : α) (m : List (String × α)) (q : String) :
    assocFind ((k, v) :: m) q = if k = q then some v else assocFind m q := rfl

theorem bIndex_foldl_lookup (c : Ctx) (q : String) :
    ∀ (l : List Row) (m : List (String × Row)),
      assocFind (l.foldl (bIndexStep c) m) q
        = (assocFind m q).or
            ((l.filter (bKeep c)).find? (fun r => bKeyOf c r == q)) := by
  intro l
  induction l with
  | nil =>
    intro m
    simp
  | cons r t ih =>
    intro m
    rw [List.foldl_cons, ih]
    by_cases hk : bKeep c r = true
    · by_cases hq : bKeyOf c r = q
      · rcases hm : assocFind m q with _ | v
        · have hm2 : assocFind m (bKeyOf c r) = none := by rw [hq]; exact hm
          rw [bIndexStep, if_pos hk, hm2]
          rw [List.filter_cons_of_pos hk,
            List.find?_cons_of_pos _ (by simp [hq])]
          simp [assocFind_cons, hq, hm]
        · have hm2 : (assocFind m (bKeyOf c r)).isSome = true := by
            rw [hq, hm]; rfl
          rw [bIndexStep, if_pos hk, if_pos hm2, hm]
          rw [List.filter_cons_of_pos hk,
            List.find?_cons_of_pos _ (by simp [hq])]
          simp
      · rw [List.filter_cons_of_pos hk,
          List.find?_cons_of_neg _ (by simp [hq])]
        rw [bIndexStep, if_pos hk]
        rcases hm2 : assocFind m (bKeyOf c r) with _ | v2
        · simp [assocFind_cons, hq]
        · simp
    · rw [bIndexStep, if_neg hk, List.filter_cons_of_neg (by simpa using hk)]

theorem bFind_eq_find (c : Ctx) (bs : List Row) (q : String) :
    bFind c bs q = (bs.filter (bKeep c)).find? (fun r => bKeyOf c r == q) := by
  rw [bFind, bIndexL, bIndex_foldl_lookup]
  rfl

theorem bFind_mem {c : Ctx} {bs : List Row} {q : String} {r : Row}
    (h : bFind c bs q = some r) : r ∈ bs := by
  rw [bFind_eq_find] at h
  exact (List.mem_filter.mp (List.mem_of_find?_eq_some h)).1

theorem bFind_keep {c : Ctx} {bs : List Row} {q : String} {r : Row}
    (h : bFind c bs q = some r) : bKeep c r = true := by
  rw [bFind_eq_find] at h
  exact (List.mem_filter.mp (List.mem_of_find?_eq_some h)).2

theorem bFind_key {c : Ctx} {bs : List Row} {q : String} {r : Row}
    (h : bFind c bs q = some r) : bKeyOf c r = q := by
  rw [bFind_eq_find] at h
  have := List.find?_some h
  simpa using this

theorem lookupB_bFind {c : Ctx} {bs : List Row} {a : Row} {r : Row}
    (h : lookupB c bs a = some r) :
    aKey c a ≠ "" ∧ bFind c bs (aKey c a) = some r := by
  rw [lookupB] at h
  by_cases hk : aKey c a = ""
  · rw [if_pos hk] at h
    cases h
  · rw [if_neg hk] at h
    exact ⟨hk, h⟩

theorem lookupB_mem {c : Ctx} {bs : List Row} {a : Row} {r : Row}
    (h : lookupB c bs a = some r) : r ∈ bs :=
  bFind_mem (lookupB_bFind h).2

end Recon

/-! ### Counting references in the result list -/

namespace Recon

theorem countP_a_probe (c : Ctx) (bs : List Row) (as2 : List Row) (a0 : Row) :
    (as2.map (probeOne c bs)).countP (fun r => decide (r.a = some a0))
      = as2.countP (fun a => decide (a = a0)) := by
  rw [List.countP_map]
  apply List.countP_congr
  intro x _
  simp [Function.comp, probeOne_a]

theorem countP_b_probe (c : Ctx) (bs : List Row) (as2 : List Row) (b0 : Row) :
    (as2.map (probeOne c bs)).countP (fun r => decide (r.b = some b0))
      = as2.countP (fun a => decide (lookupB c bs a = some b0)) := by
  rw [List.countP_map]
  apply List.countP_congr
  intro x _
  simp [Function.comp, probeOne_b]

theorem countP_a_sweep (c : Ctx) (l : List Row) (a0 : Row) :
    (l.map (mkMissingA c)).countP (fun r => decide (r.a = some a0)) = 0 := by
  rw [List.countP_map, List.countP_eq_zero]
  intro x _
  simp [Function.comp, mkMissingA_a]

theorem countP_b_sweep (c : Ctx) (l : List Row) (b0 : Row) :
    (l.map (mkMissingA c)).countP (fun r => decide (r.b = some b0))
      = l.countP (fun x => decide (x = b0)) := by
  rw [List.countP_map]
  apply List.countP_congr
  intro x _
  simp [Function.comp, mkMissingA_b]

theorem countP_eq_count (l : List Row) (a0 : Row) :
    l.countP (fun x => decide (x = a0)) = List.count a0 l := by
  rw [List.count_eq_countP]
  apply List.countP_congr
  intro x _
  simp [beq_iff_eq]

theorem mem_usedIds {c : Ctx} {as2 bs : List Row} {x : Nat} :
    x ∈ usedIds c as2 bs
      ↔ ∃ a ∈ as2, ∃ r, lookupB c bs a = some r ∧ r.rowId = x := by
  rw [usedIds]
  simp [List.mem_filterMap]

/-- A B row is matched by some A row iff its row id lands in `bUsed`
(injectivity of `__rowId` on the B side collapses the two). -/
theorem usedIds_mem_iff {args : Args}
    (hB : (args.bRows.map Row.rowId).Nodup) {b0 : Row} (hmem : b0 ∈ args.bRows) :
    (b0.rowId ∈ usedIds (mkCtx args) args.aRows args.bRows)
      ↔ 0 < args.aRows.countP
            (fun a => decide (lookupB (mkCtx args) args.bRows a = some b0)) := by
  constructor
  · intro hmem2
    obtain ⟨a, ha, r, hr, hid⟩ := mem_usedIds.mp hmem2
    have hrb : r = b0 :=
      List.inj_on_of_nodup_map hB (lookupB_mem hr) hmem hid
    rw [List.countP_pos_iff]
    exact ⟨a, ha, by simp [hrb ▸ hr]⟩
  · intro hpos
    obtain ⟨a, ha, hpa⟩ := List.countP_pos_iff.mp hpos
    have h1 : lookupB (mkCtx args) args.bRows a = some b0 := of_decide_eq_true hpa
    exact mem_usedIds.mpr ⟨a, ha, b0, h1, rfl⟩

/-- Every A row is the `a`-side reference of exactly one result record. -/
theorem count_a_formula (args : Args)
    (hA : (args.aRows.map Row.rowId).Nodup) {a0 : Row} (hmem : a0 ∈ args.aRows) :
    (resultsOf args).countP (fun r => decide (r.a = some a0)) = 1 := by
  rw [resultsOf]
  rw [List.countP_append, countP_a_probe, countP_a_sweep, countP_eq_count,
    List.count_eq_one_of_mem (List.Nodup.of_map _ hA) hmem]

/-- The number of result records whose `b`-side reference is a given B row:
one probe record per A row that keys to it, or a single MISSING_IN_A sweep
record when no A row does. -/
theorem count_b_formula (args : Args)
    (hB : (args.bRows.map Row.rowId).Nodup) {b0 : Row} (hmem : b0 ∈ args.bRows) :
    (resultsOf args).countP (fun r => decide (r.b = some b0))
      = (if args.aRows.countP
            (fun a => decide (lookupB (mkCtx args) args.bRows a = some b0)) = 0
         then 1
         else args.aRows.countP
            (fun a => decide (lookupB (mkCtx args) args.bRows a = some b0))) := by
  rw [resultsOf]
  rw [List.countP_append, countP_b_probe, countP_b_sweep, countP_eq_count]
  by_cases hn : args.aRows.countP
      (fun a => decide (lookupB (mkCtx args) args.bRows a = some b0)) = 0
  · have hnm : b0.rowId ∉ usedIds (mkCtx args) args.aRows args.bRows := by
      intro hin
      have := (usedIds_mem_iff hB hmem).mp hin
      omega
    have hmem2 : b0 ∈ unmatchedB args := by
      rw [unmatchedB]
      exact List.mem_filter.mpr ⟨hmem, by simp [hnm]⟩
    have hnd : (unmatchedB args).Nodup := by
      rw [unmatchedB]
      exact List.Nodup.filter _ (List.Nodup.of_map _ hB)
    rw [List.count_eq_one_of_mem hnd hmem2, hn]
    simp
  · have hc : b0.rowId ∈ usedIds (mkCtx args) args.aRows args.bRows :=
      (usedIds_mem_iff hB hmem).mpr (Nat.pos_of_ne_zero hn)
    have hnot : b0 ∉ unmatchedB args := by
      rw [unmatchedB]
      intro hmem2
      have := (List.mem_filter.mp hmem2).2
      simp at this
      exact this hc
    rw [List.count_eq_zero.mpr hnot, if_neg hn]
    omega

/-- A B row that the index can never hand out is referenced by exactly one
record, a MISSING_IN_A one. -/
theorem noRef_missingA (args : Args)
    (hB : (args.bRows.map Row.rowId).Nodup) {b0 : Row} (hmem : b0 ∈ args.bRows)
    (hno : ∀ q, bFind (mkCtx args) args.bRows q ≠ some b0) :
    (∀ r ∈ resultsOf args, r.b = some b0 → r.status = "MISSING_IN_A")
      ∧ (resultsOf args).countP (fun r => decide (r.b = some b0)) = 1 := by
  have hn0 : args.aRows.countP
      (fun a => decide (lookupB (mkCtx args) args.bRows a = some b0)) = 0 := by
    rw [List.countP_eq_zero]
    intro a _ hpa
    have h1 : lookupB (mkCtx args) args.bRows a = some b0 := of_decide_eq_true hpa
    exact hno _ (lookupB_bFind h1).2
  refine ⟨?_, ?_⟩
  · intro r hr hb
    rw [resultsOf] at hr
    rcases List.mem_append.mp hr with hr1 | hr2
    · obtain ⟨a, _, rfl⟩ := List.mem_map.mp hr1
      rw [probeOne_b] at hb
      exact absurd hb (fun hE => hno _ (lookupB_bFind hE).2)
    · obtain ⟨x, _, rfl⟩ := List.mem_map.mp hr2
      rfl
  · rw [count_b_formula args hB hmem, hn0]
    simp

end Recon

/-! ### First-seen-wins: later duplicate keys are never handed out -/

namespace Recon

theorem find?_append_of_mem_left {α : Type} {p : α → Bool} {l₁ l₂ : List α}
    {x : α} (hx : x ∈ l₁) (hpx : p x = true) {y : α}
    (h : (l₁ ++ l₂).find? p = some y) : y ∈ l₁ := by
  have hs : (l₁.find? p).isSome = true := by
    rw [List.find?_isSome]
    exact ⟨x, hx, hpx⟩
  obtain ⟨z, hz⟩ := Option.isSome_iff_exists.mp hs
  rw [List.find?_append, hz, Option.or_some] at h
  cases h
  exact List.mem_of_find?_eq_some hz

/-- If an earlier B row carries the same (kept) index key, the index never
returns the later row, whatever key it is probed with. -/
theorem bFind_ne_dup (c : Ctx) (bs : List Row) (hN : bs.Nodup)
    (i j : Fin bs.length) (hij : (i : Nat) < (j : Nat))
    (hkey : bKeyOf c (bs.get i) = bKeyOf c (bs.get j))
    (hkeep : bKeep c (bs.get i) = true) :
    ∀ q, bFind c bs q ≠ some (bs.get j) := by
  intro q h
  have hkj : bKeyOf c (bs.get j) = q := bFind_key h
  have hki : bKeyOf c (bs.get i) = q := by rw [hkey, hkj]
  rw [bFind_eq_find] at h
  have hsplit : bs.filter (bKeep c)
      = (bs.take ((i : Nat) + 1)).filter (bKeep c)
        ++ (bs.drop ((i : Nat) + 1)).filter (bKeep c) := by
    rw [← List.filter_append, List.take_append_drop]
  rw [hsplit] at h
  have hilt : (i : Nat) < (bs.take ((i : Nat) + 1)).length := by
    simp [List.length_take]
  have hmemi : bs.get i ∈ bs.take ((i : Nat) + 1) := by
    rw [List.mem_iff_getElem]
    refine ⟨(i : Nat), hilt, ?_⟩
    rw [List.getElem_take]
    exact (List.get_eq_getElem bs i).symm
  have hmemif : bs.get i ∈ (bs.take ((i : Nat) + 1)).filter (bKeep c) :=
    List.mem_filter.mpr ⟨hmemi, hkeep⟩
  have hpx : (fun r => bKeyOf c r == q) (bs.get i) = true := by
    show (bKeyOf c (bs.get i) == q) = true
    rw [hki]
    exact beq_self_eq_true q
  have hj1 : bs.get j ∈ (bs.take ((i : Nat) + 1)).filter (bKeep c) :=
    find?_append_of_mem_left hmemif hpx h
  have hj2 : bs.get j ∈ bs.take ((i : Nat) + 1) := (List.mem_filter.mp hj1).1
  rw [List.mem_iff_getElem] at hj2
  obtain ⟨k, hk, hkeq⟩ := hj2
  have hklen : k < bs.length := by
    simp [List.length_take] at hk
    omega
  have hki2 : k < (i : Nat) + 1 := by
    simp [List.length_take] at hk
    omega
  rw [List.getElem_take] at hkeq
  have hgg : bs.get ⟨k, hklen⟩ = bs.get j := by
    rw [List.get_eq_getElem, List.get_eq_getElem]
    exact hkeq
  have hfin := (List.Nodup.get_inj_iff hN).mp hgg
  have hkj2 : k = (j : Nat) := congrArg Fin.val hfin
  omega

/-! ### Status partition -/

theorem resultsOf_status (args : Args) :
    ∀ r ∈ resultsOf args,
      r.status = "MATCHED" ∨ r.status = "mismatch"
      ∨ r.status = "MISSING_IN_B" ∨ r.status = "MISSING_IN_A" := by
  intro r hr
  rw [resultsOf] at hr
  rcases List.mem_append.mp hr with h1 | h2
  · obtain ⟨a, _, rfl⟩ := List.mem_map.mp h1
    rcases probeOne_status (mkCtx args) args.bRows a with h | h | h
    · exact Or.inr (Or.inr (Or.inl h))
    · exact Or.inl h
    · exact Or.inr (Or.inl h)
  · obtain ⟨b, _, rfl⟩ := List.mem_map.mp h2
    exact Or.inr (Or.inr (Or.inr rfl))

theorem status_sum (l : List RRec)
    (h : ∀ r ∈ l, r.status = "MATCHED" ∨ r.status = "mismatch"
        ∨ r.status = "MISSING_IN_B" ∨ r.status = "MISSING_IN_A") :
    l.countP (·.status == "MATCHED") + l.countP (·.status == "mismatch")
      + l.countP (·.status == "MISSING_IN_A")
      + l.countP (·.status == "MISSING_IN_B")
      = l.length := by
  induction l with
  | nil => rfl
  | cons r t ih =>
    have ht := ih (fun x hx => h x (List.mem_cons_of_mem _ hx))
    have hr := h r (List.mem_cons_self _ _)
    rcases hr with h1 | h1 | h1 | h1 <;>
      simp [List.countP_cons, h1, List.length_cons] <;> omega

end Recon

/-! ### Mode-specific unfoldings -/

namespace Recon

theorem mkCtx_mode (args : Args) : (mkCtx args).mode = args.mode := rfl

theorem bKeyOf_auto {c : Ctx} (hc : c.mode = Mode.auto) (r : Row) :
    bKeyOf c r = stringify (getField r c.idB) := by
  rw [bKeyOf, hc]

theorem aKey_auto {c : Ctx} (hc : c.mode = Mode.auto) (a : Row) :
    aKey c a = stringify (getField a c.idA) := by
  rw [aKey, hc]

theorem bKeep_auto {c : Ctx} (hc : c.mode = Mode.auto) (r : Row) :
    bKeep c r = !(bKeyOf c r == "") := by
  rw [bKeep, hc]

theorem bKeep_of_key_ne {c : Ctx} {r : Row} (h : bKeyOf c r ≠ "") :
    bKeep c r = true := by
  rw [bKeep]
  rcases hc : c.mode
  · simp [h]
  · rfl

end Recon

/-! ### The claims -/

namespace Recon

/-- Claim C1, counterexample.  The claim says no row is ever the reference
of two or more result records; but when two A rows carry the same id the
single matching B row is the `b`-side reference of both of their records.
Here `ex1B` is referenced by two records. -/
theorem claim_C1_cex :
    (reconcile ex1Args).results.countP (fun r => decide (r.b = some ex1B)) = 2 := by
  decide

/-- Claim C1, amended.  Provided row ids are unique per dataset (which the
CSV parser guarantees): every A row is the `a`-side reference of exactly
one record; every B row is the `b`-side reference of exactly one record
unless several A rows produce its key, in which case it is referenced by
exactly one MATCHED/MISMATCH record per such A row (and by a MISSING_IN_A
record when no A row does).  In particular no row is absent from all
records. -/
theorem claim_C1_amended (args : Args)
    (hA : (args.aRows.map Row.rowId).Nodup)
    (hB : (args.bRows.map Row.rowId).Nodup) :
    (∀ a ∈ args.aRows,
        (reconcile args).results.countP (fun r => decide (r.a = some a)) = 1)
    ∧ (∀ b ∈ args.bRows,
        (reconcile args).results.countP (fun r => decide (r.b = some b))
          = (if args.aRows.countP
                (fun x => decide (lookupB (mkCtx args) args.bRows x = some b)) = 0
             then 1
             else args.aRows.countP
                (fun x => decide (lookupB (mkCtx args) args.bRows x = some b)))) := by
  constructor
  · intro a ha
    exact count_a_formula args hA ha
  · intro b hb
    exact count_b_formula args hB hb

theorem claim_C1_amended_witness :
    (reconcile ex1Args).results.countP (fun r => decide (r.a = some ex1A1)) = 1 :=
  (claim_C1_amended ex1Args (by decide) (by decide)).1 ex1A1 (by decide)

/-- Claim C2: the code emits the lower-case status `"mismatch"` for
mismatching pairs, contradicting the claimed upper-case-only enumeration,
while the summary still counts the record under the upper-case `MISMATCH`
counter (the casing bug the spec flags). -/
theorem claim_C2_bug :
    (reconcile ex2Args).results.map (·.status) = ["mismatch"]
    ∧ (reconcile ex2Args).summary.MISMATCH = 1 := by
  decide

/-- Claim C3: the four summary counters sum to `total`, which equals the
length of the results list. -/
theorem claim_C3 (args : Args) :
    (reconcile args).summary.MATCHED + (reconcile args).summary.MISMATCH
      + (reconcile args).summary.MISSING_IN_A
      + (reconcile args).summary.MISSING_IN_B
      = (reconcile args).summary.total
    ∧ (reconcile args).summary.total = (reconcile args).results.length := by
  refine ⟨?_, rfl⟩
  show (resultsOf args).countP (·.status == "MATCHED")
      + (resultsOf args).countP (·.status == "mismatch")
      + (resultsOf args).countP (·.status == "MISSING_IN_A")
      + (resultsOf args).countP (·.status == "MISSING_IN_B")
      = (resultsOf args).length
  exact status_sum _ (resultsOf_status args)

/-- Claim C4: the mismatch reason is not built from the comparator
verdicts on the mapped columns; it is rebuilt from raw strict inequality
of the literal `amount`/`date` properties and joined with `" | "`.  At
this input the amount comparator succeeds (100 = 100.0 within tolerance
0), yet the emitted reason still says "Amount differs". -/
theorem claim_C4_bug :
    (compareAmounts (mkCtx ex4Args).amountTol
        (getField ex4A "amount") (getField ex4B "amount")).ok = true
    ∧ (reconcile ex4Args).results.map (·.reason)
        = ["Amount differs (100 vs 100.0) | Date differs (2024-01-05 vs 2024-01-06)"] := by
  decide

/-- Claim C5: when two B rows produce the same non-empty join key, any
later such row is never handed out by the index, so it is referenced by
exactly one record and that record is MISSING_IN_A. -/
theorem claim_C5 (args : Args)
    (hB : (args.bRows.map Row.rowId).Nodup)
    (i j : Fin args.bRows.length) (hij : (i : Nat) < (j : Nat))
    (hkey : bKeyOf (mkCtx args) (args.bRows.get i)
          = bKeyOf (mkCtx args) (args.bRows.get j))
    (hne : bKeyOf (mkCtx args) (args.bRows.get j) ≠ "") :
    (∀ r ∈ (reconcile args).results,
        r.b = some (args.bRows.get j) → r.status = "MISSING_IN_A")
    ∧ (reconcile args).results.countP
        (fun r => decide (r.b = some (args.bRows.get j))) = 1 := by
  have hkeep : bKeep (mkCtx args) (args.bRows.get i) = true := by
    apply bKeep_of_key_ne
    rw [hkey]
    exact hne
  have hno := bFind_ne_dup (mkCtx args) args.bRows (List.Nodup.of_map _ hB)
    i j hij hkey hkeep
  have hmem : args.bRows.get j ∈ args.bRows := args.bRows.get_mem (j : Nat) j.isLt
  exact noRef_missingA args hB hmem hno

theorem claim_C5_witness :
    (∀ r ∈ (reconcile ex5Args).results,
        r.b = some (ex5Args.bRows.get ⟨1, by decide⟩) → r.status = "MISSING_IN_A")
    ∧ (reconcile ex5Args).results.countP
        (fun r => decide (r.b = some (ex5Args.bRows.get ⟨1, by decide⟩))) = 1 :=
  claim_C5 ex5Args (by decide) ⟨0, by decide⟩ ⟨1, by decide⟩
    (by decide) (by decide) (by decide)

end Recon

namespace Recon

/-- Claim C6: `buildKey` is deterministic in the declared-type
normalizations of the listed column values — equal normalized values
(numeric value for `number`, canonical date text for `date`,
trimmed-lower-cased text otherwise) give equal keys; and in particular
`"1,000.00"`/`"1000"` under type `number`, and `"2024-01-05"`/
`"01/05/2024"` under type `date`, produce the same key. -/
theorem claim_C6 :
    (∀ (r1 r2 : Row) (cols : List String) (rules : Option Rules),
      (∀ f ∈ cols,
        (fieldTypeOf rules f = some "number" →
          (toNumber (getField r1 f)).map JsNum.toRat
            = (toNumber (getField r2 f)).map JsNum.toRat)
        ∧ (fieldTypeOf rules f = some "date" →
            normalizeDate (getField r1 f) = normalizeDate (getField r2 f))
        ∧ (fieldTypeOf rules f ≠ some "number" →
            fieldTypeOf rules f ≠ some "date" →
            jsToLower (stringify (getField r1 f))
              = jsToLower (stringify (getField r2 f)))) →
      buildKey r1 cols rules = buildKey r2 cols rules)
    ∧ buildKey ⟨1, [("amount", "1,000.00")]⟩ ["amount"]
        (some { fieldTypes := some [("amount", "number")] })
      = buildKey ⟨2, [("amount", "1000")]⟩ ["amount"]
        (some { fieldTypes := some [("amount", "number")] })
    ∧ buildKey ⟨1, [("date", "2024-01-05")]⟩ ["date"]
        (some { fieldTypes := some [("date", "date")] })
      = buildKey ⟨2, [("date", "01/05/2024")]⟩ ["date"]
        (some { fieldTypes := some [("date", "date")] }) := by
  refine ⟨?_, by decide, by decide⟩
  intro r1 r2 cols rules h
  rw [buildKey, buildKey]
  congr 1
  apply List.map_congr_left
  intro f hf
  obtain ⟨hnum, hdate, hstr⟩ := h f hf
  by_cases ht1 : fieldTypeOf rules f = some "number"
  · rw [if_pos ht1, if_pos ht1]
    have hv := hnum ht1
    rcases h1 : toNumber (getField r1 f) with _ | x
    · rcases h2 : toNumber (getField r2 f) with _ | y
      · rfl
      · rw [h1, h2] at hv
        simp at hv
    · rcases h2 : toNumber (getField r2 f) with _ | y
      · rw [h1, h2] at hv
        simp at hv
      · rw [h1, h2] at hv
        simp at hv
        show ratKeyStr x = ratKeyStr y
        exact ratKeyStr_congr hv
  · by_cases ht2 : fieldTypeOf rules f = some "date"
    · rw [if_neg ht1, if_neg ht1, if_pos ht2, if_pos ht2, hdate ht2]
    · rw [if_neg ht1, if_neg ht1, if_neg ht2, if_neg ht2]
      exact hstr ht1 ht2

theorem claim_C6_witness :
    buildKey ex6R1 ["x"] none = buildKey ex6R2 ["x"] none :=
  claim_C6.1 ex6R1 ex6R2 ["x"] none (by decide)

/-- Claim C7, counterexample.  An unparseable `amountTolerance` is NOT
treated as tolerance zero: `Number("abc")` is `NaN`, and `diff <= NaN` is
false for every diff, so even two equal amounts (both parse to 100) fail
the comparison and the pair is classified as a mismatch instead of
MATCHED. -/
theorem claim_C7_cex :
    jsNumber "abc" = none
    ∧ (compareAmounts (tolOf (some "abc")) (some "100") (some "100")).ok = false
    ∧ toNumber (some "100") = some ⟨100, 1⟩
    ∧ (reconcile ex7Args).results.map (·.status) = ["mismatch"] := by
  decide

/-- Claim C7, amended.  A missing `amountTolerance`/`dateToleranceDays`
is numberised to `0`, so the comparison succeeds exactly when the two
parsed values are equal; an unparseable non-numeric value yields `NaN`
and makes the comparison fail for every pair of operands (still with no
fatal error — the comparators are total). -/
theorem claim_C7_amended (a b : Option String) :
    ((∀ x y, toNumber a = some x → toNumber b = some y →
        ((compareAmounts (tolOf none) a b).ok = true ↔ x.toRat = y.toRat))
     ∧ (∀ s, jsNumber s = none →
        (compareAmounts (tolOf (some s)) a b).ok = false))
    ∧ ((∀ t1 t2, normalizeDateT a = some t1 → normalizeDateT b = some t2 →
        ((compareDates (tolOf none) a b).ok = true ↔ dayNumber t1 = dayNumber t2))
     ∧ (∀ s, jsNumber s = none →
        (compareDates (tolOf (some s)) a b).ok = false)) := by
  refine ⟨⟨?_, ?_⟩, ⟨?_, ?_⟩⟩
  · intro x y hx hy
    rw [compareAmounts, hx, hy]
    have hdx : 0 < x.den := toNumber_denPos hx
    have hdy : 0 < y.den := toNumber_denPos hy
    have hds : 0 < ((x.sub y).abs).den := by
      rw [JsNum.abs, JsNum.sub]
      exact Nat.mul_pos hdx hdy
    show jsLeOpt ((x.sub y).abs) (some ⟨0, 1⟩) = true ↔ _
    rw [jsLeOpt, JsNum.le_iff hds Nat.one_pos, JsNum.toRat_abs,
      JsNum.toRat_sub (Nat.pos_iff_ne_zero.mp hdx) (Nat.pos_iff_ne_zero.mp hdy)]
    have h01 : (JsNum.mk 0 1).toRat = 0 := by
      rw [JsNum.toRat]
      norm_num
    rw [h01, abs_nonpos_iff, sub_eq_zero]
  · intro s hs
    have hts : tolOf (some s) = none := by rw [tolOf, hs]
    rw [compareAmounts, hts]
    rcases toNumber a with _ | x <;> rcases toNumber b with _ | y <;> rfl
  · intro t1 t2 h1 h2
    rw [compareDates, h1, h2]
    show jsLeOpt _ (some ⟨0, 1⟩) = true ↔ _
    rw [jsLeOpt, JsNum.le, decide_eq_true_eq]
    constructor
    · intro h
      simp at h
      omega
    · intro h
      simp [h]
  · intro s hs
    have hts : tolOf (some s) = none := by rw [tolOf, hs]
    rw [compareDates, hts]
    rcases normalizeDateT a with _ | t1 <;> rcases normalizeDateT b with _ | t2 <;> rfl

theorem claim_C7_amended_witness :
    (compareAmounts (tolOf none) (some "100") (some "100")).ok = true :=
  ((claim_C7_amended (some "100") (some "100")).1.1 ⟨100, 1⟩ ⟨100, 1⟩
    (by decide) (by decide)).mpr rfl

/-- Claim C8: the amount comparator is total; if either operand fails to
parse (`toNumber`, tolerant of thousands separators and surrounding
whitespace) it returns not-ok with reason AMOUNT_MISSING, otherwise it
returns no reason and is ok exactly when the absolute difference of the
parsed values is at most the (numeric) tolerance. -/
theorem claim_C8 (t : JsNum) (ht : 0 < t.den) (a b : Option String) :
    ((toNumber a = none ∨ toNumber b = none) →
      compareAmounts (some t) a b
        = { ok := false, reason := some "AMOUNT_MISSING" })
    ∧ (∀ x y, toNumber a = some x → toNumber b = some y →
        (compareAmounts (some t) a b).reason = none
        ∧ ((compareAmounts (some t) a b).ok = true
            ↔ |x.toRat - y.toRat| ≤ t.toRat))
    ∧ (toNumber (some " 1,234.50 ") = some ⟨123450, 100⟩
       ∧ JsNum.toRat ⟨123450, 100⟩ = (2469 : ℚ) / 2) := by
  refine ⟨?_, ?_, by decide, ?_⟩
  · intro hmiss
    rw [compareAmounts]
    rcases hA : toNumber a with _ | x <;> rcases hB2 : toNumber b with _ | y
    · rfl
    · rfl
    · rfl
    · rw [hA, hB2] at hmiss
      rcases hmiss with h | h <;> cases h
  · intro x y hx hy
    rw [compareAmounts, hx, hy]
    have hdx : 0 < x.den := toNumber_denPos hx
    have hdy : 0 < y.den := toNumber_denPos hy
    have hds : 0 < ((x.sub y).abs).den := by
      rw [JsNum.abs, JsNum.sub]
      exact Nat.mul_pos hdx hdy
    refine ⟨rfl, ?_⟩
    show jsLeOpt ((x.sub y).abs) (some t) = true ↔ _
    rw [jsLeOpt, JsNum.le_iff hds ht, JsNum.toRat_abs,
      JsNum.toRat_sub (Nat.pos_iff_ne_zero.mp hdx) (Nat.pos_iff_ne_zero.mp hdy)]
  · rw [JsNum.toRat]
    norm_num

theorem claim_C8_witness :
    (compareAmounts (some ⟨0, 1⟩) (some "100") (some "100")).reason = none :=
  ((claim_C8 ⟨0, 1⟩ (by decide) (some "100") (some "100")).2.1 ⟨100, 1⟩ ⟨100, 1⟩
    (by decide) (by decide)).1

end Recon

namespace Recon

/-- Claim C9: the results list is the probe records — one per A row, in A
order, each carrying that A row as its `a` reference and classified by
one of the three probe statuses (MISMATCH is emitted as the lower-cased
status string, see the C2 analysis) — followed by one MISSING_IN_A record
per unmatched B row, in B order (`unmatchedB` is a filter of the B rows,
so it preserves B's row order). -/
theorem claim_C9 (args : Args) :
    (reconcile args).results.length
      = args.aRows.length + (unmatchedB args).length
    ∧ (∀ (i : Nat) (ai : Row), args.aRows[i]? = some ai →
        (reconcile args).results[i]?
          = some (probeOne (mkCtx args) args.bRows ai)
        ∧ (probeOne (mkCtx args) args.bRows ai).a = some ai
        ∧ ((probeOne (mkCtx args) args.bRows ai).status = "MISSING_IN_B"
           ∨ (probeOne (mkCtx args) args.bRows ai).status = "MATCHED"
           ∨ (probeOne (mkCtx args) args.bRows ai).status = "mismatch"))
    ∧ (∀ (j : Nat) (bj : Row), (unmatchedB args)[j]? = some bj →
        (reconcile args).results[args.aRows.length + j]?
          = some (mkMissingA (mkCtx args) bj)
        ∧ (mkMissingA (mkCtx args) bj).status = "MISSING_IN_A"
        ∧ (mkMissingA (mkCtx args) bj).a = none
        ∧ (mkMissingA (mkCtx args) bj).b = some bj) := by
  refine ⟨?_, ?_, ?_⟩
  · show (resultsOf args).length = _
    rw [resultsOf]
    simp
  · intro i ai hai
    obtain ⟨hlt, -⟩ := List.getElem?_eq_some_iff.mp hai
    refine ⟨?_, probeOne_a _ _ _, probeOne_status _ _ _⟩
    show (resultsOf args)[i]? = _
    rw [resultsOf]
    rw [List.getElem?_append_left (by simpa using hlt), List.getElem?_map, hai]
    rfl
  · intro j bj hbj
    refine ⟨?_, rfl, rfl, rfl⟩
    show (resultsOf args)[args.aRows.length + j]? = _
    rw [resultsOf]
    rw [List.getElem?_append_right (by simp)]
    simp only [List.length_map]
    rw [Nat.add_sub_cancel_left, List.getElem?_map, hbj]
    rfl

theorem claim_C9_witness :
    ((reconcile ex9Args).results[0]?
        = some (probeOne (mkCtx ex9Args) ex9Args.bRows ex9A)
      ∧ (probeOne (mkCtx ex9Args) ex9Args.bRows ex9A).a = some ex9A)
    ∧ (reconcile ex9Args).results[1]?
        = some (mkMissingA (mkCtx ex9Args) ex9B) :=
  ⟨⟨((claim_C9 ex9Args).2.1 0 ex9A (by decide)).1,
    ((claim_C9 ex9Args).2.1 0 ex9A (by decide)).2.1⟩,
   ((claim_C9 ex9Args).2.2 0 ex9B (by decide)).1⟩

/-- Claim C10: in auto mode a B row whose id stringifies to the empty
string is never indexed, so it surfaces as exactly one MISSING_IN_A
record; and an A row whose id stringifies to empty gets a MISSING_IN_B
probe record with no `b` reference — so two empty-id rows never match
each other. -/
theorem claim_C10 (args : Args) (hmode : args.mode = Mode.auto)
    (hB : (args.bRows.map Row.rowId).Nodup) :
    (∀ b ∈ args.bRows,
        stringify (getField b (mkCtx args).idB) = "" →
        (∀ r ∈ (reconcile args).results, r.b = some b → r.status = "MISSING_IN_A")
        ∧ (reconcile args).results.countP (fun r => decide (r.b = some b)) = 1)
    ∧ (∀ (i : Nat) (ai : Row), args.aRows[i]? = some ai →
        stringify (getField ai (mkCtx args).idA) = "" →
        (reconcile args).results[i]?
          = some (probeOne (mkCtx args) args.bRows ai)
        ∧ (probeOne (mkCtx args) args.bRows ai).status = "MISSING_IN_B"
        ∧ (probeOne (mkCtx args) args.bRows ai).b = none) := by
  have hcm : (mkCtx args).mode = Mode.auto := hmode
  constructor
  · intro b hb hempty
    have hkeyb : bKeyOf (mkCtx args) b = "" := by
      rw [bKeyOf_auto hcm]
      exact hempty
    have hno : ∀ q, bFind (mkCtx args) args.bRows q ≠ some b := by
      intro q hq
      have hkeep := bFind_keep hq
      rw [bKeep_auto hcm, hkeyb] at hkeep
      simp at hkeep
    exact noRef_missingA args hB hb hno
  · intro i ai hai hempty
    have hkey : aKey (mkCtx args) ai = "" := by
      rw [aKey_auto hcm]
      exact hempty
    have hlook : lookupB (mkCtx args) args.bRows ai = none := by
      rw [lookupB, if_pos hkey]
    obtain ⟨hlt, -⟩ := List.getElem?_eq_some_iff.mp hai
    refine ⟨?_, ?_, ?_⟩
    · show (resultsOf args)[i]? = _
      rw [resultsOf]
      rw [List.getElem?_append_left (by simpa using hlt), List.getElem?_map, hai]
      rfl
    · rw [probeOne, hlook]
    · rw [probeOne, hlook]

theorem claim_C10_witness :
    ((∀ r ∈ (reconcile ex10Args).results,
        r.b = some ex10B → r.status = "MISSING_IN_A")
     ∧ (reconcile ex10Args).results.countP
         (fun r => decide (r.b = some ex10B)) = 1)
    ∧ ((reconcile ex10Args).results[0]?
          = some (probeOne (mkCtx ex10Args) ex10Args.bRows ex10A)
       ∧ (probeOne (mkCtx ex10Args) ex10Args.bRows ex10A).status = "MISSING_IN_B"
       ∧ (probeOne (mkCtx ex10Args) ex10Args.bRows ex10A).b = none) :=
  ⟨(claim_C10 ex10Args rfl (by decide)).1 ex10B (by decide) (by decide),
   (claim_C10 ex10Args rfl (by decide)).2 0 ex10A (by decide) (by decide)⟩

end Recon

namespace Recon

theorem claim_C3_witness :
    (reconcile ex2Args).summary.MATCHED + (reconcile ex2Args).summary.MISMATCH
      + (reconcile ex2Args).summary.MISSING_IN_A
      + (reconcile ex2Args).summary.MISSING_IN_B
      = (reconcile ex2Args).summary.total
    ∧ (reconcile ex2Args).summary.total = (reconcile ex2Args).results.length :=
  claim_C3 ex2Args

end Recon
